import Mathlib

/-!
Verification of the mongodb-data-generator repository: a shallow embedding of
the document generator (internal/model/document.go), the generation service
(internal/mongo/writer.go, package generator), the MongoDB batch writer
(internal/mongo/writer.go, package mongo) and the YCSB-style telemetry logger
(internal/logger/ycsb.go), together with theorems settling the frozen claims
about padding sizes, byte-budget accounting, channel closure, flush error
handling and percentile reporting.

Machine integers: all byte counters in the Go source are int64 and stay far
below 2^63 in every scenario considered here, so they are modelled as Nat/Int
without wrap-around.
-/

namespace DataGen

/-! ## Document model and padding (internal/model/document.go)

A generated customer document is abstracted to its serialized BSON byte
sizes: `calculatePadding` in the source serializes the document once with an
empty `Padding` string and then only works with integer sizes, so the whole
per-document content is irrelevant to the size claims. -/

/-- calculatePadding from document.go, abstracted over the serialized size
`currentSize` of the document with the empty padding string: if the document
is already at or above the target no padding is returned; otherwise the
padding length is `targetSize - currentSize - 12` when positive (the source
subtracts a fixed 12-byte allowance for BSON field overhead), else zero.
The returned value is the length of the padding string the source attaches. -/
def calculatePadding (currentSize targetSize : Int) : Int :=
  if currentSize ≥ targetSize then 0
  else if targetSize - currentSize - 12 ≤ 0 then 0
  else targetSize - currentSize - 12

/-- Serialized size of the document after Generate attaches the padding
returned by calculatePadding. The BSON framing of the `padding` string field
(type byte, key bytes, length prefix, terminator) is already present in the
empty-padding serialization that produced `currentSize`, and a BSON string
grows by exactly one byte per added character, so the final size is the
empty-padding size plus the padding length. -/
def finalSize (currentSize targetSize : Int) : Int :=
  currentSize + calculatePadding currentSize targetSize

/-! ## MongoDB batch writer (internal/mongo/writer.go, package mongo)

`writeWorker` consumes documents from the shared channel, batches them, and
flushes through `flushBatch`. A document is abstracted to its serialized BSON
byte size; `flushBatch` marshals each document, sums the byte sizes, performs
the bulk insert, records one telemetry sample per document carrying the
flush's single success flag, and adds the bytes and the count to the shared
counters whether or not the insert succeeded, finally returning the insert
error if there was one. -/

/-- A document on the channel, abstracted to its serialized BSON byte size. -/
structure Doc where
  size : Nat
deriving DecidableEq

/-- Total serialized bytes of a batch, as computed by the marshalling loop at
the top of flushBatch. -/
def batchBytes (batch : List Doc) : Nat :=
  (batch.map Doc.size).sum

/-- Shared writer-side state: the two atomic counters of the Writer struct,
the success/error tallies of the YCSB logger fed by RecordOperation, and (as
specification-only history) the list of batches flushed so far. -/
structure WriterState where
  bytesWritten : Nat
  docsWritten : Nat
  successCount : Nat
  errorCount : Nat
  flushedBatches : List (List Doc)
deriving DecidableEq

/-- The all-zero writer state at the start of a run. -/
def initWriterState : WriterState :=
  { bytesWritten := 0, docsWritten := 0, successCount := 0, errorCount := 0,
    flushedBatches := [] }

/-- Byte size of the largest batch flushed so far. -/
def maxBatchBytes (st : WriterState) : Nat :=
  (st.flushedBatches.map batchBytes).foldr Nat.max 0

/-- flushBatch from writer.go. `ok` is the outcome of the InsertMany call
(true = nil error). An empty batch returns immediately with no effect.
Otherwise: one operation sample per document is recorded with the batch-wide
success flag, the marshalled byte total and the document count are added to
the shared counters regardless of the outcome, and the insert error (if any)
is returned. The returned Bool is true when flushBatch returns nil. The
bson.Marshal early-error path of the source is not reachable here because a
document is abstracted to its already-computed serialized size. -/
def flushBatch (st : WriterState) (batch : List Doc) (ok : Bool) :
    WriterState × Bool :=
  if batch.isEmpty then (st, true)
  else
    ({ bytesWritten := st.bytesWritten + batchBytes batch,
       docsWritten := st.docsWritten + batch.length,
       successCount := st.successCount + (if ok then batch.length else 0),
       errorCount := st.errorCount + (if ok then 0 else batch.length),
       flushedBatches := st.flushedBatches ++ [batch] }, ok)

/-- Events a writeWorker can observe in its select loop: a document received
from the channel, a tick of the 100ms flush ticker, context cancellation, and
channel closure. -/
inductive WEvent where
  | recv (d : Doc)
  | tick
  | ctxDone
  | closed
deriving DecidableEq

/-- Exit status of a writeWorker: still looping, returned nil, or returned a
non-nil error (a flush error or ctx.Err()). -/
inductive WStatus where
  | running
  | doneOk
  | doneErr
deriving DecidableEq

/-- A writeWorker's local configuration-independent state: the shared writer
state, the private batch, and the worker's exit status. -/
structure WorkerRun where
  st : WriterState
  batch : List Doc
  status : WStatus
deriving DecidableEq

/-- One iteration of the writeWorker select loop from writer.go. `ok` is the
outcome every InsertMany of this run would have (the claims use all-succeed
or all-fail runs). On recv the document is appended, then the shared
bytesWritten counter is compared against targetBytes: if the target is met
the batch is flushed and the worker returns; otherwise a full batch is
flushed (a flush error makes the worker return it). On tick a nonempty batch
is flushed. On cancellation the remaining batch is flushed and ctx.Err() is
returned; on channel closure the remaining batch is flushed and the worker
returns nil unless the flush failed. A worker that has returned ignores
further events. -/
def writeWorkerStep (batchSize target : Nat) (ok : Bool)
    (r : WorkerRun) (e : WEvent) : WorkerRun :=
  match r.status with
  | WStatus.running =>
    match e with
    | WEvent.recv d =>
        let batch' := r.batch ++ [d]
        if target ≤ r.st.bytesWritten then
          let p := flushBatch r.st batch' ok
          { st := p.1, batch := [],
            status := if p.2 then WStatus.doneOk else WStatus.doneErr }
        else if batchSize ≤ batch'.length then
          let p := flushBatch r.st batch' ok
          if p.2 then { st := p.1, batch := [], status := WStatus.running }
          else { st := p.1, batch := [], status := WStatus.doneErr }
        else
          { r with batch := batch' }
    | WEvent.tick =>
        if r.batch.isEmpty then r
        else
          let p := flushBatch r.st r.batch ok
          if p.2 then { st := p.1, batch := [], status := WStatus.running }
          else { st := p.1, batch := [], status := WStatus.doneErr }
    | WEvent.ctxDone =>
        if r.batch.isEmpty then { r with status := WStatus.doneErr }
        else
          let p := flushBatch r.st r.batch ok
          { st := p.1, batch := [], status := WStatus.doneErr }
    | WEvent.closed =>
        if r.batch.isEmpty then { r with status := WStatus.doneOk }
        else
          let p := flushBatch r.st r.batch ok
          { st := p.1, batch := [],
            status := if p.2 then WStatus.doneOk else WStatus.doneErr }
  | _ => r

/-- A writeWorker run: the worker starts with an empty batch over the given
initial shared state and processes the event list in order. -/
def writeWorkerRun (batchSize target : Nat) (ok : Bool) (init : WriterState)
    (events : List WEvent) : WorkerRun :=
  events.foldl (writeWorkerStep batchSize target ok)
    { st := init, batch := [], status := WStatus.running }

/-! ## Generation service (internal/mongo/writer.go, package generator)

`Service.Generate` starts N producer workers and one monitor goroutine over
shared atomic counters `bytesGenerated`/`docsGenerated` and the shared
document channel. A producer iteration: exit if `bytesGenerated ≥
targetBytes`; generate a document; set `docSize :=
int64(s.docGenerator.TargetSize())` (the tier size — an estimate, not the
document's serialized size); exit if `bytesGenerated + docSize > targetBytes`
without sending; otherwise send on the channel and, on success, add docSize
and 1 to the counters — a cancellation observed while blocked on the send
returns without touching the counters. The monitor ticks every 100ms and, the
first time it observes `bytesGenerated ≥ targetBytes`, closes the channel and
returns. Workers never close the channel. -/

/-- Shared state of the generation service: the two atomic counters, whether
the document channel has been closed, and whether the monitor goroutine has
returned. -/
structure GenState where
  bytesGenerated : Nat
  docsGenerated : Nat
  channelClosed : Bool
  monitorDone : Bool
deriving DecidableEq

/-- The generation-service state at the start of a run. -/
def initGenState : GenState :=
  { bytesGenerated := 0, docsGenerated := 0, channelClosed := false,
    monitorDone := false }

/-- Interleaving labels for the generation service. `workerSend base` is a
producer completing a channel send of a record whose empty-padding serialized
size is `base`; `workerCancelInSend` is a producer observing ctx.Done while
blocked on the send; `monitorTick` is one tick of the monitor goroutine. -/
inductive GLabel where
  | monitorTick
  | workerSend (base : Nat)
  | workerCancelInSend
deriving DecidableEq

/-- One atomic step of the generation service, following Service.worker and
the monitor closure in Service.Generate. A label whose guard does not hold
(a send on a closed channel, a send the estimate check rejects, a tick of a
finished monitor) leaves the state unchanged. On a completed send the amount
added to bytesGenerated is `tierSize` — the worker's docSize estimate
`int64(s.docGenerator.TargetSize())` — independent of the record itself. -/
def genStep (target tierSize : Nat) (s : GenState) (l : GLabel) : GenState :=
  match l with
  | GLabel.monitorTick =>
      if s.monitorDone then s
      else if target ≤ s.bytesGenerated then
        { s with channelClosed := true, monitorDone := true }
      else s
  | GLabel.workerSend _ =>
      if s.channelClosed then s
      else if s.bytesGenerated + tierSize ≤ target then
        { s with bytesGenerated := s.bytesGenerated + tierSize,
                 docsGenerated := s.docsGenerated + 1 }
      else s
  | GLabel.workerCancelInSend => s

/-- The generation-service state after an interleaved sequence of steps. -/
def genReach (target tierSize : Nat) (s : GenState) (ls : List GLabel) :
    GenState :=
  ls.foldl (genStep target tierSize) s

/-- Number of steps in a trace at which the channel goes from open to
closed. -/
def closeEvents (target tierSize : Nat) (s : GenState) : List GLabel → Nat
  | [] => 0
  | l :: ls =>
      let s' := genStep target tierSize s l
      (if s.channelClosed = false ∧ s'.channelClosed = true then 1 else 0) +
        closeEvents target tierSize s' ls

/-! ## Telemetry logger (internal/logger/ycsb.go)

The percentile index computations in the source are IEEE-754 float64
expressions: `int(float64(len(latencies)) * 0.99)` and similar. They are
embedded exactly over Nat arithmetic: a nonnegative float64 value is
represented as an exact dyadic pair (m, s) standing for m / 2^s; a rational
is rounded to the nearest value with a 53-bit significand (the conversion of
a literal or an int to float64), the product of two such values is formed
exactly and rounded once more (the IEEE multiplication), and the final Go
int conversion truncates. The rounding here resolves ties upward while
IEEE-754 resolves them to even; no computation in this development lands on
an exact tie, so the models agree on every value appearing here. -/

/-- Fuel-driven base-2 logarithm on Nat, written with structural recursion
so that it reduces inside the kernel. -/
def natLog2Aux : Nat → Nat → Nat
  | 0, _ => 0
  | fuel + 1, n => if n ≤ 1 then 0 else natLog2Aux fuel (n / 2) + 1

/-- Base-2 logarithm on Nat: the largest e with 2^e ≤ n (0 for n = 0). -/
def natLog2 (n : Nat) : Nat :=
  natLog2Aux n n

/-- Number of binary digits of n (0 for n = 0). -/
def bitLen (n : Nat) : Nat :=
  if n = 0 then 0 else natLog2 n + 1

/-- Round-to-nearest of the fraction p / q, ties upward. -/
def roundDiv (p q : Nat) : Nat :=
  (2 * p + q) / (2 * q)

/-- Fuel-driven search for the smallest d with p * 2^d ≥ q. -/
def upShiftAux : Nat → Nat → Nat → Nat
  | 0, _, _ => 0
  | fuel + 1, p, q => if q ≤ p then 0 else upShiftAux fuel (2 * p) q + 1

/-- The smallest d with p * 2^d ≥ q, for 0 < p < q; equivalently -e where e
is the floor base-2 logarithm of p / q. -/
def upShift (p q : Nat) : Nat :=
  upShiftAux (bitLen q + 1) p q

/-- The IEEE-754 double nearest to the nonnegative rational p / q, as an
exact dyadic pair (m, s) whose value is m / 2^s: the binary magnitude e of
p / q is located, and the value is rounded to the nearest multiple of the
unit in the last place 2^(e-52). -/
def doubleOfRat (p q : Nat) : Nat × Nat :=
  if p = 0 ∨ q = 0 then (0, 0)
  else if q ≤ p then
    if bitLen (p / q) - 1 ≤ 52 then
      (roundDiv (p * 2 ^ (52 - (bitLen (p / q) - 1))) q,
       52 - (bitLen (p / q) - 1))
    else
      (roundDiv p (q * 2 ^ (bitLen (p / q) - 1 - 52)) *
        2 ^ (bitLen (p / q) - 1 - 52), 0)
  else
    (roundDiv (p * 2 ^ (52 + upShift p q)) q, 52 + upShift p q)

/-- The percentile index computation shared by the snapshot formatters:
`int(float64(n) * c)` for a percentile fraction literal c given as a
numerator/denominator pair, followed by the clamp
`if idx >= n { idx = n - 1 }`. The float64 of n, the float64 of the
literal, and their rounded product are each computed by doubleOfRat; the
int conversion truncates the nonnegative result. -/
def percentileIndex (n : Nat) (c : Nat × Nat) : Nat :=
  let nf := doubleOfRat n 1
  let cf := doubleOfRat c.1 c.2
  let pf := doubleOfRat (nf.1 * cf.1) (2 ^ (nf.2 + cf.2))
  let i := pf.1 / 2 ^ pf.2
  if n ≤ i then n - 1 else i

/-- Percentile fraction literal 0.50 from the source. -/
def c50 : Nat × Nat := (50, 100)

/-- Percentile fraction literal 0.90 from the source. -/
def c90 : Nat × Nat := (90, 100)

/-- Percentile fraction literal 0.95 from the source. -/
def c95 : Nat × Nat := (95, 100)

/-- Percentile fraction literal 0.99 from the source. -/
def c99 : Nat × Nat := (99, 100)

/-- Percentile fraction literal 0.999 from the source. -/
def c999 : Nat × Nat := (999, 1000)

/-- Percentile fraction literal 0.9999 from the source. -/
def c9999 : Nat × Nat := (9999, 10000)

/-- Percentile fraction literal 0.99999 from the source. -/
def c99999 : Nat × Nat := (99999, 100000)

/-- One recorded operation sample, as appended by RecordOperation. -/
structure Operation where
  type : String
  latencyUs : Int
  success : Bool
deriving DecidableEq

/-- The latency values of a list of operations, sorted ascending as by the
sort.Slice call in the snapshot formatters. -/
def sortLats (ops : List Operation) : List Int :=
  List.insertionSort (fun a b => a ≤ b) (ops.map Operation.latencyUs)

/-- The sorted latency at the clamped percentile index for fraction c. -/
def percentileAt (lats : List Int) (c : Nat × Nat) : Int :=
  lats.getD (percentileIndex lats.length c) 0

/-- Per-operation-type statistics as computed by formatOperationStatsInline:
count, min, max, total latency (the printed average is total/count), and the
90/99/99.9/99.99 percentile ladder. -/
structure OpStats where
  count : Nat
  minLat : Int
  maxLat : Int
  totalLat : Int
  p90 : Int
  p99 : Int
  p999 : Int
  p9999 : Int
deriving DecidableEq

/-- formatOperationStatsInline from ycsb.go: none models the bare Count=0
string emitted for an empty group; otherwise the latencies are sorted and
the statistics computed. -/
def inlineOpStats (ops : List Operation) : Option OpStats :=
  if ops.isEmpty then none
  else
    let lats := sortLats ops
    some { count := ops.length,
           minLat := lats.getD 0 0,
           maxLat := lats.getD (lats.length - 1) 0,
           totalLat := (ops.map Operation.latencyUs).sum,
           p90 := percentileAt lats c90,
           p99 := percentileAt lats c99,
           p999 := percentileAt lats c999,
           p9999 := percentileAt lats c9999 }

/-- Label of the 50thPercentileLatency(us) line of the final statistics. -/
def label50 : String := "50thPercentileLatency(us)"

/-- Label of the 95thPercentileLatency(us) line of the final statistics. -/
def label95 : String := "95thPercentileLatency(us)"

/-- Label of the 99thPercentileLatency(us) line of the final statistics. -/
def label99 : String := "99thPercentileLatency(us)"

/-- Label of the 99.9PercentileLatency(us) line of the final statistics. -/
def label999 : String := "99.9PercentileLatency(us)"

/-- Label of the 99.99PercentileLatency(us) line of the final statistics. -/
def label9999 : String := "99.99PercentileLatency(us)"

/-- Label of the 99.999PercentileLatency(us) line of the final statistics. -/
def label99999 : String := "99.999PercentileLatency(us)"

/-- Label a 90th-percentile line of the final statistics would carry, in the
naming scheme of writeFinalOperationStats; the source never emits it. -/
def label90 : String := "90thPercentileLatency(us)"

/-- The per-operation-type block written by writeFinalOperationStats for the
final snapshot: operation count, min/max/total latency, the labelled
percentile lines in emission order, and the Return=OK / Return=ERROR counts
(each printed only when positive). -/
structure FinalOpReport where
  operations : Nat
  minLat : Int
  maxLat : Int
  totalLat : Int
  percentiles : List (String × Int)
  okCount : Nat
  errCount : Nat
deriving DecidableEq

/-- writeFinalOperationStats from ycsb.go: nothing is written for an empty
group; otherwise latencies are sorted and the extended percentile ladder
50th, 95th, 99th, 99.9th, 99.99th, 99.999th is emitted. -/
def writeFinalOperationStats (ops : List Operation) : Option FinalOpReport :=
  if ops.isEmpty then none
  else
    let lats := sortLats ops
    some { operations := ops.length,
           minLat := lats.getD 0 0,
           maxLat := lats.getD (lats.length - 1) 0,
           totalLat := (ops.map Operation.latencyUs).sum,
           percentiles :=
             [(label50, percentileAt lats c50),
              (label95, percentileAt lats c95),
              (label99, percentileAt lats c99),
              (label999, percentileAt lats c999),
              (label9999, percentileAt lats c9999),
              (label99999, percentileAt lats c99999)],
           okCount := (ops.filter (fun o => o.success)).length,
           errCount := (ops.filter (fun o => !o.success)).length }

/-- The operation types present in a sample log, in first-occurrence order.
Go iterates its map in unspecified order; the set of per-type groups is
deterministic, and first-occurrence order fixes one canonical enumeration. -/
def opTypes (ops : List Operation) : List String :=
  ops.foldl (fun acc o => if o.type ∈ acc then acc else acc ++ [o.type]) []

/-- The per-operation-type statistics of one WriteStats snapshot. -/
def snapshotPerType (ops : List Operation) : List (String × OpStats) :=
  (opTypes ops).filterMap
    (fun t => (inlineOpStats (ops.filter (fun o => o.type = t))).map
      (fun s => (t, s)))

/-- Logger state read and written by WriteStats: the cumulative sample log
and the lastOpCount used for the between-snapshots throughput delta. The
wall-clock fields only feed time-derived outputs and are not modelled. -/
structure LoggerState where
  operations : List Operation
  lastOpCount : Nat
deriving DecidableEq

/-- WriteStats from ycsb.go, restricted to its per-operation-type output:
with no samples it returns early leaving the state unchanged; otherwise it
recomputes every per-type statistic from the cumulative log and updates
lastOpCount. It never modifies the operations log. -/
def writeStats (st : LoggerState) :
    Option (List (String × OpStats)) × LoggerState :=
  if st.operations.isEmpty then (none, st)
  else
    (some (snapshotPerType st.operations),
     { st with lastOpCount := st.operations.length })

/-! ## Test vectors and invariants used by the claim theorems -/

/-- The operation type recorded by flushBatch for every document. -/
def insertType : String := "INSERT"

/-- The synthetic sample log of the spec: 100 INSERT samples with latencies
10, 20, ..., 1000 microseconds. -/
def ramp100 : List Operation :=
  (List.range 100).map
    (fun i => { type := insertType, latencyUs := (10 : Int) * ((i : Int) + 1),
                success := true })

/-- A one-sample log used to exercise the final-statistics block. -/
def oneInsert : List Operation :=
  [{ type := insertType, latencyUs := 10, success := true }]

/-- The labels of the percentile lines the final statistics block emits for
a group of operations, in emission order (empty list when no block is
written). -/
def finalPercentileLabels (ops : List Operation) : List String :=
  ((writeFinalOperationStats ops).map
    (fun r => r.percentiles.map Prod.fst)).getD []

/-- The advertised claim form of the ingestion-side volume bound, written
from the spec sentence for refutation: writtenBytes never exceeds
targetBytes plus the byte size of one largest flushed batch. -/
def OneBatchOvershootBound (target : Nat) (r : WorkerRun) : Prop :=
  r.st.bytesWritten ≤ target + maxBatchBytes r.st

/-- Invariant of a writeWorker run in which every bulk insert fails: no
success is ever tallied, every recorded sample is a failure (so the error
tally tracks docsWritten), at most one batch ever gets flushed, and a worker
that is still running, or that managed to return nil, has flushed nothing. -/
def AllFailInv (r : WorkerRun) : Prop :=
  r.st.successCount = 0 ∧
  r.st.errorCount = r.st.docsWritten ∧
  r.st.flushedBatches.length ≤ 1 ∧
  ((r.status = WStatus.running ∨ r.status = WStatus.doneOk) →
    r.st.flushedBatches = [])

/-- Overshoot invariant of a writeWorker run: while the worker is running,
either the shared counter is still below target, or the private batch is
empty and the counter exceeds target by at most one flushed batch; in every
state the counter exceeds target by at most two flushed batches. -/
def OvershootInv (target : Nat) (r : WorkerRun) : Prop :=
  (r.status = WStatus.running →
    (r.st.bytesWritten < target ∨
     (r.batch = [] ∧ r.st.bytesWritten ≤ target + maxBatchBytes r.st))) ∧
  r.st.bytesWritten ≤ target + 2 * maxBatchBytes r.st

/-! ## Helper lemmas -/

/-- Unfolding lemma for flushBatch on a nonempty batch. -/
theorem flushBatch_of_ne_nil (st : WriterState) (b : List Doc) (ok : Bool)
    (h : b ≠ []) :
    flushBatch st b ok =
      ({ bytesWritten := st.bytesWritten + batchBytes b,
         docsWritten := st.docsWritten + b.length,
         successCount := st.successCount + (if ok then b.length else 0),
         errorCount := st.errorCount + (if ok then 0 else b.length),
         flushedBatches := st.flushedBatches ++ [b] }, ok) := by
  cases b with
  | nil => exact absurd rfl h
  | cons d t => rfl

/-- A right Nat.max fold with seed x is the max of the zero-seeded fold and
the seed. -/
theorem foldr_max_init (l : List Nat) (x : Nat) :
    l.foldr Nat.max x = Nat.max (l.foldr Nat.max 0) x := by
  induction l with
  | nil => simp [Nat.max_comm]
  | cons a l ih => simp [ih, Nat.max_assoc]

/-- Flushing a nonempty batch updates the largest-batch bookkeeping to the
max of the old value and the flushed batch's bytes. -/
theorem maxBatchBytes_flush (st : WriterState) (b : List Doc) (ok : Bool)
    (h : b ≠ []) :
    maxBatchBytes (flushBatch st b ok).1 =
      max (maxBatchBytes st) (batchBytes b) := by
  rw [flushBatch_of_ne_nil st b ok h]
  unfold maxBatchBytes
  rw [List.map_append, List.foldr_append, foldr_max_init]
  simp

/-- Byte total of a batch extended by one document. -/
theorem batchBytes_append (b : List Doc) (d : Doc) :
    batchBytes (b ++ [d]) = batchBytes b + d.size := by
  simp [batchBytes]

/-- A property preserved by every writeWorker step holds after processing
any event list. -/
theorem writeWorkerRun_inv (bs target : Nat) (ok : Bool)
    (P : WorkerRun → Prop)
    (hstep : ∀ r e, P r → P (writeWorkerStep bs target ok r e))
    (r0 : WorkerRun) (h0 : P r0) (events : List WEvent) :
    P (events.foldl (writeWorkerStep bs target ok) r0) := by
  induction events generalizing r0 with
  | nil => exact h0
  | cons e es ih => exact ih _ (hstep r0 e h0)

/-! ## Claim theorems -/

/-- C3: for every size tier T, the padding attached by Generate has length
exactly max(0, T - S - 12) where S is the empty-padding serialized size;
whenever S < T the final serialized size lies in the window [T - 12, T], and
whenever S ≥ T - 12 no padding is emitted and the final size equals the
unpadded size — oversized documents are never truncated. -/
theorem calculatePadding_spec (S T : Int) :
    calculatePadding S T = max 0 (T - S - 12) ∧
    (S < T → T - 12 ≤ finalSize S T ∧ finalSize S T ≤ T) ∧
    (T - 12 ≤ S → calculatePadding S T = 0 ∧ finalSize S T = S) := by
  unfold finalSize calculatePadding
  split_ifs <;>
    refine ⟨?_, fun hlt => ⟨?_, ?_⟩, fun hge => ⟨?_, ?_⟩⟩ <;> omega

/-- C3 witness: at S = 100 and tier T = 2048 the padded document lands in
the [T - 12, T] window. -/
theorem calculatePadding_spec_witness :
    (100 : Int) < 2048 ∧
    (2048 - 12 ≤ finalSize 100 2048 ∧ finalSize 100 2048 ≤ 2048) :=
  ⟨by decide, (calculatePadding_spec 100 2048).2.1 (by decide)⟩

/-- C10: a failed bulk insert updates the written-side counters exactly as a
successful one does — flushBatch adds the batch's full serialized byte total
and record count, records one failed sample per record, and only then
returns the error. -/
theorem flushBatch_error_accounting (st : WriterState) (batch : List Doc) :
    (flushBatch st batch false).1.bytesWritten =
      (flushBatch st batch true).1.bytesWritten ∧
    (flushBatch st batch false).1.docsWritten =
      (flushBatch st batch true).1.docsWritten ∧
    (batch ≠ [] →
      (flushBatch st batch false).1.bytesWritten =
        st.bytesWritten + batchBytes batch ∧
      (flushBatch st batch false).1.docsWritten =
        st.docsWritten + batch.length ∧
      (flushBatch st batch false).1.errorCount =
        st.errorCount + batch.length ∧
      (flushBatch st batch false).1.successCount = st.successCount ∧
      (flushBatch st batch false).2 = false ∧
      (flushBatch st batch true).2 = true) := by
  cases batch with
  | nil => exact ⟨rfl, rfl, fun h => absurd rfl h⟩
  | cons d t => exact ⟨rfl, rfl, fun _ => ⟨rfl, rfl, rfl, rfl, rfl, rfl⟩⟩

/-- C10 witness: a failing two-document flush from the zero state counts 30
bytes, 2 documents and 2 error samples, and returns the error. -/
theorem flushBatch_error_accounting_witness :
    ([(⟨10⟩ : Doc), ⟨20⟩] ≠ ([] : List Doc)) ∧
    (flushBatch initWriterState [⟨10⟩, ⟨20⟩] false).1.bytesWritten =
      initWriterState.bytesWritten + batchBytes [⟨10⟩, ⟨20⟩] ∧
    (flushBatch initWriterState [⟨10⟩, ⟨20⟩] false).1.docsWritten =
      initWriterState.docsWritten + 2 ∧
    (flushBatch initWriterState [⟨10⟩, ⟨20⟩] false).1.errorCount =
      initWriterState.errorCount + 2 ∧
    (flushBatch initWriterState [⟨10⟩, ⟨20⟩] false).1.successCount =
      initWriterState.successCount ∧
    (flushBatch initWriterState [⟨10⟩, ⟨20⟩] false).2 = false :=
  ⟨by decide,
   ((flushBatch_error_accounting initWriterState [⟨10⟩, ⟨20⟩]).2.2
     (by decide)).1,
   ((flushBatch_error_accounting initWriterState [⟨10⟩, ⟨20⟩]).2.2
     (by decide)).2.1,
   ((flushBatch_error_accounting initWriterState [⟨10⟩, ⟨20⟩]).2.2
     (by decide)).2.2.1,
   ((flushBatch_error_accounting initWriterState [⟨10⟩, ⟨20⟩]).2.2
     (by decide)).2.2.2.1,
   ((flushBatch_error_accounting initWriterState [⟨10⟩, ⟨20⟩]).2.2
     (by decide)).2.2.2.2.1⟩

/-- C7: on the synthetic log of 100 samples 10, 20, ..., 1000 microseconds,
the 99th-percentile index computation int(float64(100) * 0.99), clamped to
the last index, selects index 99, so the reported 99th-percentile latency is
1000 — the maximum sample. -/
theorem p99_of_ramp100 :
    percentileIndex 100 c99 = 99 ∧
    (inlineOpStats ramp100).map OpStats.p99 = some 1000 ∧
    (inlineOpStats ramp100).map OpStats.maxLat = some 1000 := by
  decide

/-- C9: running the per-operation-type snapshot computation twice with no
samples recorded in between yields identical counts, min, max, average
totals and percentiles, because WriteStats recomputes everything from the
cumulative log and never modifies it. -/
theorem writeStats_idempotent (st : LoggerState) :
    (writeStats (writeStats st).2).1 = (writeStats st).1 ∧
    ((writeStats st).2).operations = st.operations := by
  unfold writeStats
  by_cases h : st.operations.isEmpty <;> simp [h]

/-- C8 counterexample: the final statistics block for a concrete one-sample
log carries the labels 50th, 95th, 99th, 99.9, 99.99 and 99.999 — the
90th-percentile line the claim requires is absent (the final block has a
95th instead; only the periodic inline snapshot reports a 90th). -/
theorem finalStats_omit_90th :
    finalPercentileLabels oneInsert =
      [label50, label95, label99, label999, label9999, label99999] ∧
    label90 ∉ finalPercentileLabels oneInsert := by
  decide

/-- C8 amended: for every nonempty operation group, the final snapshot's
percentile ladder consists of exactly the 50th, 95th, 99th, 99.9th, 99.99th
and 99.999th percentile lines, in that order. -/
theorem finalStats_percentile_ladder (ops : List Operation) (h : ops ≠ []) :
    finalPercentileLabels ops =
      [label50, label95, label99, label999, label9999, label99999] := by
  unfold finalPercentileLabels writeFinalOperationStats
  cases ops with
  | nil => exact absurd rfl h
  | cons o t => rfl

/-- C8 witness: the amended ladder at the concrete one-sample log. -/
theorem finalStats_percentile_ladder_witness :
    (oneInsert ≠ []) ∧
    finalPercentileLabels oneInsert =
      [label50, label95, label99, label999, label9999, label99999] :=
  ⟨by decide, finalStats_percentile_ladder oneInsert (by decide)⟩

/-- C5 counterexample: a producer at tier 2048 sending a record whose
empty-padding serialized size is 100 adds 2048 — the tier target returned by
TargetSize() — to generatedBytes, while the record's serialized byte size is
2036; the amount added is not the record's size. -/
theorem genSend_increment_differs_from_size :
    (genStep 1000000 2048 initGenState (GLabel.workerSend 100)).bytesGenerated
      = 2048 ∧
    finalSize 100 2048 = 2036 ∧
    (((genStep 1000000 2048 initGenState
        (GLabel.workerSend 100)).bytesGenerated : Int) ≠ finalSize 100 2048) := by
  decide

/-- C5 amended: for every record a producer successfully sends, the amount
added to generatedBytes is the tier size TargetSize() — the generator-side
estimate, identical for every record — and the document tally grows by one;
the record's own serialized size does not enter the increment. -/
theorem genSend_adds_tier_estimate (target tier : Nat) (s : GenState)
    (base : Nat) (hopen : s.channelClosed = false)
    (hfit : s.bytesGenerated + tier ≤ target) :
    (genStep target tier s (GLabel.workerSend base)).bytesGenerated =
      s.bytesGenerated + tier ∧
    (genStep target tier s (GLabel.workerSend base)).docsGenerated =
      s.docsGenerated + 1 := by
  simp [genStep, hopen, hfit]

/-- C5 witness: the amended increment at a concrete open-channel state. -/
theorem genSend_adds_tier_estimate_witness :
    initGenState.channelClosed = false ∧
    initGenState.bytesGenerated + 2048 ≤ 1000000 ∧
    (genStep 1000000 2048 initGenState (GLabel.workerSend 100)).bytesGenerated
      = initGenState.bytesGenerated + 2048 :=
  ⟨rfl, by decide,
   (genSend_adds_tier_estimate 1000000 2048 initGenState 100 rfl
     (by decide)).1⟩

/-- C6: the generation counters move only as the immediate consequence of a
completed channel send — any step that changes generatedBytes or
docsGenerated is a workerSend on the open channel passing the budget check,
adding exactly the tier estimate and one document — and a cancellation
observed while blocked on the send leaves both counters untouched. -/
theorem gen_counters_only_on_send (target tier : Nat) (s : GenState) :
    genStep target tier s GLabel.workerCancelInSend = s ∧
    (∀ l : GLabel,
      ((genStep target tier s l).bytesGenerated ≠ s.bytesGenerated ∨
        (genStep target tier s l).docsGenerated ≠ s.docsGenerated) →
      ∃ b : Nat, l = GLabel.workerSend b ∧ s.channelClosed = false ∧
        s.bytesGenerated + tier ≤ target ∧
        (genStep target tier s l).bytesGenerated = s.bytesGenerated + tier ∧
        (genStep target tier s l).docsGenerated = s.docsGenerated + 1) := by
  refine ⟨rfl, ?_⟩
  intro l hl
  cases l with
  | monitorTick =>
      exfalso
      unfold genStep at hl
      split_ifs at hl <;> simp at hl
  | workerSend b =>
      cases hb : s.channelClosed with
      | true => exfalso; unfold genStep at hl; rw [hb] at hl; simp at hl
      | false =>
          by_cases hfit : s.bytesGenerated + tier ≤ target
          · exact ⟨b, rfl, rfl, hfit, by simp [genStep, hb, hfit],
              by simp [genStep, hb, hfit]⟩
          · exfalso; unfold genStep at hl; rw [hb] at hl
            simp [hfit] at hl
  | workerCancelInSend => simp [genStep] at hl

/-- C6 witness: a concrete counter-changing step is a send that adds the
tier estimate and one document. -/
theorem gen_counters_only_on_send_witness :
    ((genStep 10 5 initGenState (GLabel.workerSend 3)).bytesGenerated ≠
        initGenState.bytesGenerated ∨
      (genStep 10 5 initGenState (GLabel.workerSend 3)).docsGenerated ≠
        initGenState.docsGenerated) ∧
    (∃ b : Nat, GLabel.workerSend 3 = GLabel.workerSend b ∧
      initGenState.channelClosed = false ∧
      initGenState.bytesGenerated + 5 ≤ 10 ∧
      (genStep 10 5 initGenState (GLabel.workerSend 3)).bytesGenerated =
        initGenState.bytesGenerated + 5 ∧
      (genStep 10 5 initGenState (GLabel.workerSend 3)).docsGenerated =
        initGenState.docsGenerated + 1) :=
  ⟨by decide,
   (gen_counters_only_on_send 10 5 initGenState).2 (GLabel.workerSend 3)
     (by decide)⟩

/-- A step never reopens a closed channel. -/
theorem genStep_closed_mono (target tier : Nat) (s : GenState) (l : GLabel)
    (h : s.channelClosed = true) :
    (genStep target tier s l).channelClosed = true := by
  cases l with
  | monitorTick => unfold genStep; split_ifs <;> simp [h]
  | workerSend b => unfold genStep; split_ifs <;> simp [h]
  | workerCancelInSend => exact h

/-- The generated-bytes counter never decreases across a step. -/
theorem genStep_gen_mono (target tier : Nat) (s : GenState) (l : GLabel) :
    s.bytesGenerated ≤ (genStep target tier s l).bytesGenerated := by
  cases l with
  | monitorTick => unfold genStep; split_ifs <;> simp
  | workerSend b => unfold genStep; split_ifs <;> simp
  | workerCancelInSend => exact Nat.le_refl _

/-- A step that closes the channel is a monitor tick observing the byte
budget met, and it retires the monitor. -/
theorem genStep_flip (target tier : Nat) (s : GenState) (l : GLabel)
    (h0 : s.channelClosed = false)
    (h1 : (genStep target tier s l).channelClosed = true) :
    l = GLabel.monitorTick ∧ target ≤ s.bytesGenerated ∧
      (genStep target tier s l).monitorDone = true := by
  cases l with
  | monitorTick =>
      simp only [genStep] at h1 ⊢
      split_ifs at h1 with hm ht
      · simp_all
      · exact ⟨by simp, ht, by simp [hm, ht]⟩
      · simp_all
  | workerSend b =>
      exfalso
      simp only [genStep] at h1
      split_ifs at h1 <;> simp_all
  | workerCancelInSend => exact absurd h1 (by simp [genStep, h0])

/-- Channel closure is monotone along any trace. -/
theorem genReach_closed_mono (target tier : Nat) (s : GenState)
    (ls : List GLabel) (h : s.channelClosed = true) :
    (genReach target tier s ls).channelClosed = true := by
  induction ls generalizing s with
  | nil => exact h
  | cons l ls ih => exact ih _ (genStep_closed_mono target tier s l h)

/-- A trace starting at a closed channel contains no closing step. -/
theorem closeEvents_of_closed (target tier : Nat) (s : GenState)
    (ls : List GLabel) (h : s.channelClosed = true) :
    closeEvents target tier s ls = 0 := by
  induction ls generalizing s with
  | nil => rfl
  | cons l ls ih =>
      simp only [closeEvents]
      rw [ih _ (genStep_closed_mono target tier s l h)]
      simp [h]

/-- Every trace contains at most one closing step. -/
theorem closeEvents_le_one (target tier : Nat) (s : GenState)
    (ls : List GLabel) :
    closeEvents target tier s ls ≤ 1 := by
  induction ls generalizing s with
  | nil => simp [closeEvents]
  | cons l ls ih =>
      simp only [closeEvents]
      by_cases hf : s.channelClosed = false ∧
          (genStep target tier s l).channelClosed = true
      · rw [if_pos hf, closeEvents_of_closed target tier _ ls hf.2]
      · rw [if_neg hf]
        simpa using ih (genStep target tier s l)

/-- A step preserves the invariant that a closed channel means the byte
budget was met. -/
theorem genStep_closed_target (target tier : Nat) (s : GenState) (l : GLabel)
    (hinv : s.channelClosed = true → target ≤ s.bytesGenerated) :
    (genStep target tier s l).channelClosed = true →
      target ≤ (genStep target tier s l).bytesGenerated := by
  intro h1
  cases hb : s.channelClosed with
  | true => exact Nat.le_trans (hinv hb) (genStep_gen_mono target tier s l)
  | false =>
      obtain ⟨-, ht, -⟩ := genStep_flip target tier s l hb h1
      exact Nat.le_trans ht (genStep_gen_mono target tier s l)

/-- Along any trace, the closed-implies-budget-met invariant persists. -/
theorem genReach_closed_target (target tier : Nat) (s : GenState)
    (ls : List GLabel)
    (hinv : s.channelClosed = true → target ≤ s.bytesGenerated) :
    (genReach target tier s ls).channelClosed = true →
      target ≤ (genReach target tier s ls).bytesGenerated := by
  induction ls generalizing s with
  | nil => exact hinv
  | cons l ls ih => exact ih _ (genStep_closed_target target tier s l hinv)

/-- C4: the document channel is closed only by the monitor task and never by
a producer (every non-monitor step preserves the closure flag), a closing
step happens only when generatedBytes has reached targetBytes and retires
the monitor, every trace contains at most one closing step, any reachable
closed state has generatedBytes ≥ targetBytes, and the first monitor tick
that observes the budget met does close the channel — together: the channel
is closed exactly once, by the monitor alone, no earlier than the first
instant generatedBytes ≥ targetBytes. -/
theorem channel_closed_once_by_monitor (target tier : Nat) :
    (∀ (s : GenState) (l : GLabel), l ≠ GLabel.monitorTick →
      (genStep target tier s l).channelClosed = s.channelClosed) ∧
    (∀ (s : GenState) (l : GLabel), s.channelClosed = false →
      (genStep target tier s l).channelClosed = true →
      l = GLabel.monitorTick ∧ target ≤ s.bytesGenerated ∧
        (genStep target tier s l).monitorDone = true) ∧
    (∀ (s : GenState) (ls : List GLabel),
      closeEvents target tier s ls ≤ 1) ∧
    (∀ ls : List GLabel,
      (genReach target tier initGenState ls).channelClosed = true →
      target ≤ (genReach target tier initGenState ls).bytesGenerated) ∧
    (∀ s : GenState, s.monitorDone = false → target ≤ s.bytesGenerated →
      (genStep target tier s GLabel.monitorTick).channelClosed = true) := by
  refine ⟨?_, ?_, closeEvents_le_one target tier, ?_, ?_⟩
  · intro s l hne
    cases l with
    | monitorTick => exact absurd rfl hne
    | workerSend b => unfold genStep; split_ifs <;> simp
    | workerCancelInSend => rfl
  · exact fun s l => genStep_flip target tier s l
  · exact fun ls => genReach_closed_target target tier initGenState ls
      (fun h => absurd h (by simp [initGenState]))
  · intro s hm ht
    simp [genStep, hm, ht]

/-- C4 witness: at a concrete state with the budget met and the monitor
still live, the monitor's tick closes the channel. -/
theorem channel_closed_once_by_monitor_witness :
    (⟨7, 1, false, false⟩ : GenState).monitorDone = false ∧
    5 ≤ (⟨7, 1, false, false⟩ : GenState).bytesGenerated ∧
    (genStep 5 3 ⟨7, 1, false, false⟩ GLabel.monitorTick).channelClosed =
      true :=
  ⟨rfl, by decide,
   (channel_closed_once_by_monitor 5 3).2.2.2.2 ⟨7, 1, false, false⟩ rfl
     (by decide)⟩

/-- A writeWorker step preserves the all-inserts-fail invariant. -/
theorem allFailInv_step (bs target : Nat) (r : WorkerRun) (e : WEvent)
    (h : AllFailInv r) : AllFailInv (writeWorkerStep bs target false r e) := by
  rcases r with ⟨st, batch, status⟩
  obtain ⟨h1, h2, h3, h4⟩ := h
  dsimp only at h1 h2 h3 h4
  cases status with
  | doneOk => exact ⟨h1, h2, h3, h4⟩
  | doneErr => exact ⟨h1, h2, h3, h4⟩
  | running =>
    have hfl : st.flushedBatches = [] := h4 (Or.inl rfl)
    cases e with
    | recv d =>
        have hne : batch ++ [d] ≠ [] := by simp
        by_cases ht : target ≤ st.bytesWritten
        · simp only [writeWorkerStep, if_pos ht,
            flushBatch_of_ne_nil st (batch ++ [d]) false hne]
          exact ⟨by simpa using h1, by simp [h2], by simp [hfl],
            fun hc => by simp at hc⟩
        · by_cases hfull : bs ≤ (batch ++ [d]).length
          · simp only [writeWorkerStep, if_neg ht, if_pos hfull,
              flushBatch_of_ne_nil st (batch ++ [d]) false hne]
            exact ⟨by simpa using h1, by simp [h2], by simp [hfl],
              fun hc => by simp at hc⟩
          · simp only [writeWorkerStep, if_neg ht, if_neg hfull]
            exact ⟨h1, h2, h3, fun _ => hfl⟩
    | tick =>
        by_cases hb : batch.isEmpty
        · simp only [writeWorkerStep, if_pos hb]
          exact ⟨h1, h2, h3, h4⟩
        · have hne : batch ≠ [] := by simpa using hb
          simp only [writeWorkerStep, if_neg hb,
            flushBatch_of_ne_nil st batch false hne]
          exact ⟨by simpa using h1, by simp [h2], by simp [hfl],
            fun hc => by simp at hc⟩
    | ctxDone =>
        by_cases hb : batch.isEmpty
        · simp only [writeWorkerStep, if_pos hb]
          exact ⟨h1, h2, h3, fun hc => by simp at hc⟩
        · have hne : batch ≠ [] := by simpa using hb
          simp only [writeWorkerStep, if_neg hb,
            flushBatch_of_ne_nil st batch false hne]
          exact ⟨by simpa using h1, by simp [h2], by simp [hfl],
            fun hc => by simp at hc⟩
    | closed =>
        by_cases hb : batch.isEmpty
        · simp only [writeWorkerStep, if_pos hb]
          exact ⟨h1, h2, h3, fun _ => hfl⟩
        · have hne : batch ≠ [] := by simpa using hb
          simp only [writeWorkerStep, if_neg hb,
            flushBatch_of_ne_nil st batch false hne]
          exact ⟨by simpa using h1, by simp [h2], by simp [hfl],
            fun hc => by simp at hc⟩

/-- C1 counterexample: with batch size 1, a run in which every bulk insert
fails does not keep flushing subsequent batches — the very first failed
flush makes the worker return the error (which, under the errgroup, cancels
the whole pool): after receiving two documents and the channel closure, the
worker has exited with an error, only the first document was ever flushed,
and errorCount is 1, not the total operation count 2 the claim requires. -/
theorem writeWorker_flushError_stops_worker :
    (writeWorkerRun 1 1000000 false initWriterState
      [WEvent.recv ⟨10⟩, WEvent.recv ⟨10⟩, WEvent.closed]).status =
        WStatus.doneErr ∧
    (writeWorkerRun 1 1000000 false initWriterState
      [WEvent.recv ⟨10⟩, WEvent.recv ⟨10⟩, WEvent.closed]).st.successCount
        = 0 ∧
    (writeWorkerRun 1 1000000 false initWriterState
      [WEvent.recv ⟨10⟩, WEvent.recv ⟨10⟩, WEvent.closed]).st.errorCount
        = 1 ∧
    (writeWorkerRun 1 1000000 false initWriterState
      [WEvent.recv ⟨10⟩, WEvent.recv ⟨10⟩, WEvent.closed]).st.docsWritten
        = 1 := by
  decide

/-- C1 amended: when a bulk insert fails, flushBatch still records one
failed telemetry sample per record and updates the shared counters, there is
no retry — but the worker then returns the error and stops (cancelling the
pool through the errgroup): in a run where every insert fails, successCount
stays 0 and errorCount equals the documents flushed, at most one batch is
ever flushed by the worker, and any flush at all leaves the worker exited
with an error. -/
theorem writeWorker_allFail_behavior (bs target : Nat)
    (events : List WEvent) :
    (writeWorkerRun bs target false initWriterState events).st.successCount
      = 0 ∧
    (writeWorkerRun bs target false initWriterState events).st.errorCount =
      (writeWorkerRun bs target false initWriterState events).st.docsWritten ∧
    (writeWorkerRun bs target false
      initWriterState events).st.flushedBatches.length ≤ 1 ∧
    ((writeWorkerRun bs target false initWriterState events).st.flushedBatches
        ≠ [] →
      (writeWorkerRun bs target false initWriterState events).status =
        WStatus.doneErr) := by
  have h : AllFailInv (writeWorkerRun bs target false initWriterState
      events) :=
    writeWorkerRun_inv bs target false AllFailInv
      (allFailInv_step bs target) _ ⟨rfl, rfl, by decide, fun _ => rfl⟩ events
  obtain ⟨h1, h2, h3, h4⟩ := h
  refine ⟨h1, h2, h3, fun hne => ?_⟩
  cases hst : (writeWorkerRun bs target false initWriterState events).status
  case doneErr => rfl
  case running => exact absurd (h4 (Or.inl hst)) hne
  case doneOk => exact absurd (h4 (Or.inr hst)) hne

/-- C1 witness: the amended behavior at a concrete failing run — one flush
happened, so the worker exited with an error. -/
theorem writeWorker_allFail_behavior_witness :
    (writeWorkerRun 1 1000000 false initWriterState
      [WEvent.recv ⟨10⟩]).st.flushedBatches ≠ [] ∧
    (writeWorkerRun 1 1000000 false initWriterState
      [WEvent.recv ⟨10⟩]).status = WStatus.doneErr :=
  ⟨by decide,
   (writeWorker_allFail_behavior 1 1000000 [WEvent.recv ⟨10⟩]).2.2.2
     (by decide)⟩

/-- Combined effect of flushing a nonempty batch on the written-bytes
counter, the largest-batch bookkeeping and the returned error. -/
theorem flushBatch_spec (st : WriterState) (b : List Doc) (ok : Bool)
    (h : b ≠ []) :
    (flushBatch st b ok).1.bytesWritten = st.bytesWritten + batchBytes b ∧
    maxBatchBytes (flushBatch st b ok).1 =
      max (maxBatchBytes st) (batchBytes b) ∧
    (flushBatch st b ok).2 = ok :=
  ⟨by rw [flushBatch_of_ne_nil st b ok h],
   maxBatchBytes_flush st b ok h,
   by rw [flushBatch_of_ne_nil st b ok h]⟩

/-- A writeWorker step preserves the overshoot invariant. -/
theorem overshootInv_step (bs target : Nat) (ok : Bool) (r : WorkerRun)
    (e : WEvent) (h : OvershootInv target r) :
    OvershootInv target (writeWorkerStep bs target ok r e) := by
  rcases r with ⟨st, batch, status⟩
  obtain ⟨hrun, hbound⟩ := h
  dsimp only at hrun hbound
  cases status with
  | doneOk => exact ⟨hrun, hbound⟩
  | doneErr => exact ⟨hrun, hbound⟩
  | running =>
    have hD := hrun rfl
    cases e with
    | recv d =>
        have hne : batch ++ [d] ≠ [] := by simp
        obtain ⟨e1, e2, e3⟩ := flushBatch_spec st (batch ++ [d]) ok hne
        by_cases ht : target ≤ st.bytesWritten
        · have hbe : st.bytesWritten ≤ target + maxBatchBytes st := by
            rcases hD with hlt | hpair
            · omega
            · exact hpair.2
          simp only [writeWorkerStep, ht, if_true]
          constructor
          · intro hs
            rw [e3] at hs
            cases ok <;> simp at hs
          · dsimp only
            rw [e1, e2]
            have h1 := Nat.le_max_left (maxBatchBytes st)
              (batchBytes (batch ++ [d]))
            have h2 := Nat.le_max_right (maxBatchBytes st)
              (batchBytes (batch ++ [d]))
            omega
        · by_cases hfull : bs ≤ (batch ++ [d]).length
          · simp only [writeWorkerStep, ht, hfull, if_false, if_true]
            rw [e3]
            have h1 := Nat.le_max_left (maxBatchBytes st)
              (batchBytes (batch ++ [d]))
            have h2 := Nat.le_max_right (maxBatchBytes st)
              (batchBytes (batch ++ [d]))
            cases ok
            · rw [if_neg Bool.false_ne_true]
              constructor
              · intro hs; simp at hs
              · dsimp only; rw [e1, e2]; omega
            · rw [if_pos rfl]
              constructor
              · intro _
                refine Or.inr ⟨rfl, ?_⟩
                dsimp only; rw [e1, e2]; omega
              · dsimp only; rw [e1, e2]; omega
          · simp only [writeWorkerStep, ht, hfull, if_false]
            exact ⟨fun _ => Or.inl (by dsimp only; omega), hbound⟩
    | tick =>
        by_cases hb : batch.isEmpty
        · simp only [writeWorkerStep, hb, if_true]
          exact ⟨hrun, hbound⟩
        · have hne : batch ≠ [] := by simpa using hb
          have hlt : st.bytesWritten < target := by
            rcases hD with hlt | hpair
            · exact hlt
            · exact absurd hpair.1 hne
          obtain ⟨e1, e2, e3⟩ := flushBatch_spec st batch ok hne
          have hb' : batch.isEmpty = false := by simpa using hb
          simp only [writeWorkerStep, hb', Bool.false_eq_true, if_false]
          rw [e3]
          have h1 := Nat.le_max_left (maxBatchBytes st) (batchBytes batch)
          have h2 := Nat.le_max_right (maxBatchBytes st) (batchBytes batch)
          cases ok
          · rw [if_neg Bool.false_ne_true]
            constructor
            · intro hs; simp at hs
            · dsimp only; rw [e1, e2]; omega
          · rw [if_pos rfl]
            constructor
            · intro _
              refine Or.inr ⟨rfl, ?_⟩
              dsimp only; rw [e1, e2]; omega
            · dsimp only; rw [e1, e2]; omega
    | ctxDone =>
        by_cases hb : batch.isEmpty
        · simp only [writeWorkerStep, hb, if_true]
          exact ⟨fun hs => by simp at hs, hbound⟩
        · have hne : batch ≠ [] := by simpa using hb
          have hlt : st.bytesWritten < target := by
            rcases hD with hlt | hpair
            · exact hlt
            · exact absurd hpair.1 hne
          obtain ⟨e1, e2, e3⟩ := flushBatch_spec st batch ok hne
          have hb' : batch.isEmpty = false := by simpa using hb
          simp only [writeWorkerStep, hb', Bool.false_eq_true, if_false]
          constructor
          · intro hs; simp at hs
          · dsimp only
            rw [e1, e2]
            have h1 := Nat.le_max_left (maxBatchBytes st) (batchBytes batch)
            have h2 := Nat.le_max_right (maxBatchBytes st) (batchBytes batch)
            omega
    | closed =>
        by_cases hb : batch.isEmpty
        · simp only [writeWorkerStep, hb, if_true]
          exact ⟨fun hs => by simp at hs, hbound⟩
        · have hne : batch ≠ [] := by simpa using hb
          have hlt : st.bytesWritten < target := by
            rcases hD with hlt | hpair
            · exact hlt
            · exact absurd hpair.1 hne
          obtain ⟨e1, e2, e3⟩ := flushBatch_spec st batch ok hne
          have hb' : batch.isEmpty = false := by simpa using hb
          simp only [writeWorkerStep, hb', Bool.false_eq_true, if_false]
          constructor
          · intro hs
            rw [e3] at hs
            cases ok <;> simp at hs
          · dsimp only
            rw [e1, e2]
            have h1 := Nat.le_max_left (maxBatchBytes st) (batchBytes batch)
            have h2 := Nat.le_max_right (maxBatchBytes st) (batchBytes batch)
            omega

/-- C2 counterexample: a single consumer worker with batch size 2 and
targetBytes 25, fed five 10-byte documents, reaches writtenBytes = 50 while
its largest flushed batch is 20 bytes — exceeding targetBytes plus one
largest batch (45): the one-batch overshoot bound of the claim is violated
on a reachable run. -/
theorem writtenBytes_exceeds_one_batch_bound :
    (writeWorkerRun 2 25 true initWriterState
      (List.replicate 5 (WEvent.recv ⟨10⟩))).st.bytesWritten = 50 ∧
    maxBatchBytes (writeWorkerRun 2 25 true initWriterState
      (List.replicate 5 (WEvent.recv ⟨10⟩))).st = 20 ∧
    ¬ OneBatchOvershootBound 25 (writeWorkerRun 2 25 true initWriterState
      (List.replicate 5 (WEvent.recv ⟨10⟩))) := by
  refine ⟨by decide, by decide, ?_⟩
  unfold OneBatchOvershootBound
  decide

/-- C2 amended: for a single ingestion worker, writtenBytes never exceeds
targetBytes plus twice the byte size of the largest flushed batch — the
worker can add one crossing batch that overshoots the target and then one
final batch flushed on the target-met check, so the overshoot is bounded by
two batches, not one. Every reachable state of a run is the final state of
some prefix of its event list, so quantifying over all event lists covers
every reachable state. -/
theorem writtenBytes_two_batch_bound (bs target : Nat) (ok : Bool)
    (events : List WEvent) :
    (writeWorkerRun bs target ok initWriterState events).st.bytesWritten ≤
      target + 2 * maxBatchBytes
        (writeWorkerRun bs target ok initWriterState events).st := by
  have h : OvershootInv target
      (writeWorkerRun bs target ok initWriterState events) :=
    writeWorkerRun_inv bs target ok (OvershootInv target)
      (overshootInv_step bs target ok) _
      ⟨fun _ => Or.inr ⟨rfl, by simp [initWriterState]⟩, by
        simp [initWriterState]⟩ events
  exact h.2

end DataGen
